import Mathlib

/-!
Verification development for the MaxPyLang CLI core
(`maxpylang/cli/{resolve,errors,export_amxd,output,main}.py`).

Strings are modelled as `List Char`; fallible code returns `Except`;
filesystem state is threaded explicitly as an association list from
paths to file contents.
-/

set_option maxRecDepth 4000

abbrev Str := List Char

deriving instance DecidableEq for Except

/-- Single-quote character (ASCII 39), used when building error messages. -/
def sqc : Char := Char.ofNat 39

/-- Python `str.isspace`-style whitespace test restricted to the ASCII
whitespace characters produced by this CLI. -/
def isSpace (c : Char) : Bool :=
  c = ' ' || c = '\t' || c = '\n' || c = '\r' || c = Char.ofNat 11 || c = Char.ofNat 12

/-- Python `str.strip()`: drop whitespace from both ends. -/
def pyStrip (s : Str) : Str :=
  ((s.dropWhile isSpace).reverse.dropWhile isSpace).reverse

/-- Python `s.split(sep, 1)` for a single-character separator: returns the
parts before and after the first occurrence, or `none` if absent. -/
def splitFirstChar (sep : Char) : Str → Option (Str × Str)
  | [] => none
  | c :: cs =>
    if c = sep then some ([], cs)
    else
      match splitFirstChar sep cs with
      | some (a, b) => some (c :: a, b)
      | none => none

/-- Python `s.rsplit(sep, 1)` for a single-character separator: splits at
the last occurrence. -/
def rsplitLastChar (sep : Char) (s : Str) : Option (Str × Str) :=
  match splitFirstChar sep s.reverse with
  | some (a, b) => some (b.reverse, a.reverse)
  | none => none

/-- Python `s.split(sep, 1)` for a multi-character separator: splits at the
first occurrence of the substring. -/
def splitFirstSub (sep : Str) : Str → Option (Str × Str)
  | [] => none
  | c :: cs =>
    if sep.isPrefixOf (c :: cs) then some ([], (c :: cs).drop sep.length)
    else
      match splitFirstSub sep cs with
      | some (a, b) => some (c :: a, b)
      | none => none

/-- Python `sep in s` for a substring test (via `splitFirstSub`). -/
def containsSub (sep s : Str) : Bool :=
  (splitFirstSub sep s).isSome

/-- Python `", ".join(xs)`. -/
def joinCommaSpace : List Str → Str
  | [] => []
  | [x] => x
  | x :: xs => x ++ (", ".data) ++ joinCommaSpace xs

/-- Python `s.replace(a, b)` for single characters. -/
def replaceChar (a b : Char) (s : Str) : Str :=
  s.map (fun c => if c = a then b else c)

/-- Python `s.lower()` (ASCII). -/
def lowerStr (s : Str) : Str :=
  s.map Char.toLower

/-- ASCII decimal digit test. -/
def isDigitCh (c : Char) : Bool :=
  '0' ≤ c && c ≤ '9'

/-- Numeric value of a decimal digit character. -/
def digitVal (c : Char) : Nat :=
  c.toNat - 48

/-- Tail of Python's integer-literal digit grammar `[0-9](_?[0-9])*`:
underscores may appear only between digits. -/
def digitsTail : Str → Bool
  | [] => true
  | c :: rest =>
    if c = '_' then
      match rest with
      | [] => false
      | d :: rest2 => isDigitCh d && digitsTail rest2
    else isDigitCh c && digitsTail rest

/-- Python's unsigned integer-literal digit grammar (nonempty, digits with
optional single underscores between digits). -/
def validDigits : Str → Bool
  | [] => false
  | c :: rest => isDigitCh c && digitsTail rest

/-- One step of decimal accumulation, skipping underscores. -/
def digitStep (acc : Nat) (c : Char) : Nat :=
  if c = '_' then acc else acc * 10 + digitVal c

/-- Value of a digit string (underscores ignored). -/
def digitsNat (s : Str) : Nat :=
  s.foldl digitStep 0

/-- Python `int(s)`: strips whitespace, optional sign, then digits. Returns
`none` where Python raises `ValueError`. -/
def pyInt (s : Str) : Option Int :=
  match pyStrip s with
  | [] => none
  | c :: rest =>
    if c = '+' then (if validDigits rest then some ((digitsNat rest : Nat) : Int) else none)
    else if c = '-' then (if validDigits rest then some (-((digitsNat rest : Nat) : Int)) else none)
    else if validDigits (c :: rest) then some ((digitsNat (c :: rest) : Nat) : Int) else none

/-- Worker for decimal rendering; `fuel` bounds the recursion depth so the
definition is structural and kernel-computable. -/
def natToStrCore : Nat → Nat → Str → Str
  | 0, _, acc => acc
  | fuel + 1, n, acc =>
    if n < 10 then Nat.digitChar n :: acc
    else natToStrCore fuel (n / 10) (Nat.digitChar (n % 10) :: acc)

/-- Decimal rendering of a natural number (Python `str(n)` for `n ≥ 0`). -/
def natToStr (n : Nat) : Str :=
  natToStrCore (n + 1) n []

/-- Python `str(i)` for an `int`. -/
def intToStr (i : Int) : Str :=
  if i < 0 then '-' :: natToStr i.natAbs else natToStr i.toNat

/-! ## Error taxonomy (`errors.py`) -/

/-- The CLI error hierarchy of `errors.py`. `baseError` stands for a raised
`MaxPyCLIError` that is none of the four concrete subclasses. -/
inductive CLIError where
  | usageError (msg : Str)
  | objectResolutionError (msg : Str)
  | validationError (msg : Str)
  | internalError (msg : Str)
  | baseError (msg : Str)
deriving DecidableEq

/-- The stable `exit_code` attribute of each error class (base default 5). -/
def CLIError.exit_code : CLIError → Nat
  | usageError _ => 2
  | objectResolutionError _ => 3
  | validationError _ => 4
  | internalError _ => 5
  | baseError _ => 5

/-- A raised Python exception as seen by the command pipeline: a taxonomy
error, one of the specifically-caught builtin exceptions, the CLI
framework's own exception, or anything else. -/
inductive PyExc where
  | cli (e : CLIError)
  | fileNotFound (msg : Str)
  | isADirectory (msg : Str)
  | assertionFailed (msg : Str)
  | valueErr (msg : Str)
  | typeErr (msg : Str)
  | keyErr (msg : Str)
  | clickExc
  | indexErr (msg : Str)
  | otherExc (msg : Str)
deriving DecidableEq

/-! ## Selector and edge resolution (`resolve.py`) -/

/-- The slice of a Max box that `resolve.py` reads:
`obj._dict.get("box", {}).get("varname")` (`none` when the varname is
absent, `None`, or not a string — none of which compare equal to a string
alias), plus the inlet and outlet port lists. Ports are opaque ids. -/
structure GraphObject where
  varname : Option Str
  ins : List Nat
  outs : List Nat
deriving DecidableEq

/-- A patch as consumed by the resolver: the insertion-ordered mapping
`patch.objs` from identifier to object. -/
structure Patch where
  objs : List (Str × GraphObject)
deriving DecidableEq

/-- Python dict lookup `patch.objs[k]` (first binding of a key). -/
def lookupObj : List (Str × GraphObject) → Str → Option GraphObject
  | [], _ => none
  | (k, v) :: rest, key => if k = key then some v else lookupObj rest key

def emptySelectorMsg : Str := ("selector cannot be empty".data)

def aliasFormatMsg : Str := ("alias selector must be formatted as @alias:<name>".data)

def notFoundObjMsg (s : Str) : Str := ("object not found: ".data) ++ s

def notFoundAliasMsg (a : Str) : Str := ("alias not found: ".data) ++ a

/-- `f"alias '{alias}' is ambiguous (matches: {match_ids})"`. -/
def ambiguousMsg (a : Str) (ids : List Str) : Str :=
  ("alias ".data) ++ [sqc] ++ a ++ [sqc] ++ (" is ambiguous (matches: ".data)
    ++ joinCommaSpace ids ++ (")".data)

/-- Lines 24-30 of `resolve.py`: derive the alias to scan for (`some a`),
no alias (`none`, `obj-`-prefixed non-identifier), or a usage error for a
malformed `@alias:` form. -/
def derive_alias (s : Str) : Except CLIError (Option Str) :=
  if ("@alias:".data).isPrefixOf s then
    match splitFirstChar ':' s with
    | some (_, rest) =>
      let a := pyStrip rest
      if a = [] then .error (.usageError aliasFormatMsg) else .ok (some a)
    | none => .ok none
  else if ("obj-".data).isPrefixOf s then .ok none
  else .ok (some s)

/-- The objects whose varname alias equals `a`, in mapping iteration
order. -/
def aliasMatches (patch : Patch) (a : Str) : List (Str × GraphObject) :=
  patch.objs.filter (fun p => p.2.varname = some a)

/-- `resolve_selector` from `resolve.py`. -/
def resolve_selector (patch : Patch) (selector : Str) :
    Except CLIError (Str × GraphObject) :=
  let s := pyStrip selector
  if s = [] then .error (.usageError emptySelectorMsg)
  else
    match lookupObj patch.objs s with
    | some obj => .ok (s, obj)
    | none =>
      match derive_alias s with
      | .error e => .error e
      | .ok none => .error (.objectResolutionError (notFoundObjMsg s))
      | .ok (some a) =>
        match aliasMatches patch a with
        | [] => .error (.objectResolutionError (notFoundAliasMsg a))
        | [m] => .ok m
        | ms => .error (.objectResolutionError (ambiguousMsg a (ms.map Prod.fst)))

/-- `f"endpoint '{endpoint}' must be formatted as <selector>:<index>"`. -/
def endpointFormatMsg (e : Str) : Str :=
  ("endpoint ".data) ++ [sqc] ++ e ++ [sqc]
    ++ (" must be formatted as <selector>:<index>".data)

/-- `f"endpoint '{endpoint}' has an empty selector"`. -/
def endpointEmptySelMsg (e : Str) : Str :=
  ("endpoint ".data) ++ [sqc] ++ e ++ [sqc] ++ (" has an empty selector".data)

/-- `f"endpoint '{endpoint}' index must be an integer"`. -/
def endpointIntMsg (e : Str) : Str :=
  ("endpoint ".data) ++ [sqc] ++ e ++ [sqc] ++ (" index must be an integer".data)

/-- `f"endpoint '{endpoint}' index must be >= 0"`. -/
def endpointNegMsg (e : Str) : Str :=
  ("endpoint ".data) ++ [sqc] ++ e ++ [sqc] ++ (" index must be >= 0".data)

/-- `parse_endpoint` from `resolve.py`: split on the last colon, strip both
sides, parse the index as a non-negative integer. -/
def parse_endpoint (endpoint : Str) : Except CLIError (Str × Int) :=
  match rsplitLastChar ':' endpoint with
  | none => .error (.usageError (endpointFormatMsg endpoint))
  | some (rawSel, rawIndex) =>
    let sel := pyStrip rawSel
    let idxS := pyStrip rawIndex
    if sel = [] then .error (.usageError (endpointEmptySelMsg endpoint))
    else
      match pyInt idxS with
      | none => .error (.usageError (endpointIntMsg endpoint))
      | some i =>
        if i < 0 then .error (.usageError (endpointNegMsg endpoint))
        else .ok (sel, i)

/-- `f"edge '{edge}' must be formatted as <src>:<outlet>-><dst>:<inlet>"`. -/
def edgeFormatMsg (e : Str) : Str :=
  ("edge ".data) ++ [sqc] ++ e ++ [sqc]
    ++ (" must be formatted as <src>:<outlet>-><dst>:<inlet>".data)

/-- `parse_edge` from `resolve.py`: split on the first `->`, parse both
sides as endpoints. -/
def parse_edge (edge : Str) : Except CLIError (Str × Int × Str × Int) :=
  match splitFirstSub ("->".data) edge with
  | none => .error (.usageError (edgeFormatMsg edge))
  | some (src, dst) =>
    match parse_endpoint src with
    | .error e => .error e
    | .ok (srcSel, srcIdx) =>
      match parse_endpoint dst with
      | .error e => .error e
      | .ok (dstSel, dstIdx) => .ok (srcSel, srcIdx, dstSel, dstIdx)

/-- Python `l[i]` on a list: non-negative indices from the front, negative
indices from the back, `none` for an `IndexError`. -/
def pyGetItem (l : List Nat) (i : Int) : Option Nat :=
  if 0 ≤ i then l.get? i.toNat
  else
    let j := (l.length : Int) + i
    if 0 ≤ j then l.get? j.toNat else none

/-- `f"outlet index {index} out of range for {label} ({n} outlet(s))"`. -/
def outletRangeMsg (index : Int) (label : Str) (n : Nat) : Str :=
  ("outlet index ".data) ++ intToStr index ++ (" out of range for ".data)
    ++ label ++ (" (".data) ++ natToStr n ++ (" outlet(s))".data)

/-- `f"inlet index {index} out of range for {label} ({n} inlet(s))"`. -/
def inletRangeMsg (index : Int) (label : Str) (n : Nat) : Str :=
  ("inlet index ".data) ++ intToStr index ++ (" out of range for ".data)
    ++ label ++ (" (".data) ++ natToStr n ++ (" inlet(s))".data)

/-- `resolve_outlet` from `resolve.py`. `index` is a Python `int`;
`obj.outs[index]` uses Python sequence indexing. -/
def resolve_outlet (patch : Patch) (selector : Str) (index : Int) :
    Except PyExc (Str × Nat) :=
  match resolve_selector patch selector with
  | .error e => .error (.cli e)
  | .ok (label, obj) =>
    if (obj.outs.length : Int) ≤ index then
      .error (.cli (.objectResolutionError (outletRangeMsg index label obj.outs.length)))
    else
      match pyGetItem obj.outs index with
      | some port => .ok (label, port)
      | none => .error (.indexErr ("list index out of range".data))

/-- `resolve_inlet` from `resolve.py`. -/
def resolve_inlet (patch : Patch) (selector : Str) (index : Int) :
    Except PyExc (Str × Nat) :=
  match resolve_selector patch selector with
  | .error e => .error (.cli e)
  | .ok (label, obj) =>
    if (obj.ins.length : Int) ≤ index then
      .error (.cli (.objectResolutionError (inletRangeMsg index label obj.ins.length)))
    else
      match pyGetItem obj.ins index with
      | some port => .ok (label, port)
      | none => .error (.indexErr ("list index out of range".data))

/-! ## Export and validation helpers (`export_amxd.py`) -/

/-- A box entry of the on-disk patch or the helper library, reduced to the
field `export_amxd.py` reads: `entry.get("box", {}).get("id")`. The value
is `none` when the id is missing or not a string (both fail the
`isinstance(box_id, str)` checks identically). -/
structure BoxEntry where
  id : Option Str
deriving DecidableEq

def invalidHelperIdMsg : Str :=
  ("invalid helper box id while constructing validation patch".data)

/-- The numeric suffix `int(box_id.split("-", 1)[1])` of a box entry whose
id is a string with the `obj-` prefix; `none` for every entry the
`_next_object_index` loop skips (non-string id, other prefix, unparsable
suffix). -/
def entrySuffix (entry : BoxEntry) : Option Int :=
  match entry.id with
  | none => none
  | some s =>
    if ("obj-".data).isPrefixOf s then
      match splitFirstChar '-' s with
      | some (_, rest) => pyInt rest
      | none => none
    else none

/-- One iteration of the `_next_object_index` loop:
`max_id = max(max_id, index)` on parse success, else unchanged. -/
def nextIdxStep (acc : Int) (entry : BoxEntry) : Int :=
  match entrySuffix entry with
  | some i => max acc i
  | none => acc

/-- `_next_object_index` from `export_amxd.py`: the running max (starting
at 0) of the numeric suffixes of well-formed `obj-<n>` string ids. -/
def _next_object_index (boxes : List BoxEntry) : Int :=
  boxes.foldl nextIdxStep 0

/-- `f"obj-{n}"`. -/
def objIdStr (n : Int) : Str := ("obj-".data) ++ intToStr n

/-- Python dict assignment `d[k] = v`: update the first binding in place,
else append. -/
def dictInsert : List (Str × Str) → Str → Str → List (Str × Str)
  | [], k, v => [(k, v)]
  | (k0, v0) :: rest, k, v =>
    if k0 = k then (k0, v) :: rest else (k0, v0) :: dictInsert rest k v

/-- Loop body of `_build_helper_id_map`. -/
def buildHelperIdMapAux : List BoxEntry → Int → List (Str × Str) →
    Except CLIError (List (Str × Str))
  | [], _, m => .ok m
  | hb :: rest, n, m =>
    match hb.id with
    | none => .error (.validationError invalidHelperIdMsg)
    | some helperId => buildHelperIdMapAux rest (n + 1) (dictInsert m helperId (objIdStr n))

/-- `_build_helper_id_map` from `export_amxd.py`: assign
`obj-(next_index)`, `obj-(next_index+1)`, … to the helper boxes in order,
where `next_index = _next_object_index(boxes) + 1`; a non-string helper id
raises `ValidationError`. The returned dict is an ordered association
list. -/
def _build_helper_id_map (boxes helper_boxes : List BoxEntry) :
    Except CLIError (List (Str × Str)) :=
  buildHelperIdMapAux helper_boxes (_next_object_index boxes + 1) []

/-- The string ids of the helper boxes, or `none` if some id is not a
string. -/
def helperIdsOf : List BoxEntry → Option (List Str)
  | [] => some []
  | hb :: rest =>
    match hb.id with
    | none => none
    | some s =>
      match helperIdsOf rest with
      | some l => some (s :: l)
      | none => none

/-- The canonical value of the id map for all-string helper ids. -/
def canonIdMap : List Str → Int → List (Str × Str)
  | [], _ => []
  | h :: t, n => (h, objIdStr n) :: canonIdMap t (n + 1)

/-- A filesystem: association list from path to file contents. -/
abbrev FS := List (Str × Str)

def fsRead : FS → Str → Option Str
  | [], _ => none
  | (p, c) :: rest, path => if p = path then some c else fsRead rest path

def fsExists (fs : FS) (path : Str) : Bool := (fsRead fs path).isSome

def fsWrite (fs : FS) (path contents : Str) : FS := dictInsert fs path contents

/-- The final path component (after the last `/`). -/
def pathName (p : Str) : Str :=
  match rsplitLastChar '/' p with
  | some (_, n) => n
  | none => p

/-- `pathlib.PurePath.suffix`: `name[i:]` for the last dot position `i`
when `0 < i < len(name) - 1`, else empty. -/
def pathSuffix (p : Str) : Str :=
  match rsplitLastChar '.' (pathName p) with
  | none => []
  | some (before, after) =>
    if before ≠ [] ∧ after ≠ [] then '.' :: after else []

def badExtensionMsg : Str := ("output path must use the .amxd extension".data)

/-- `normalize_amxd_path` from `export_amxd.py`. -/
def normalize_amxd_path (output_path : Str) : Except CLIError Str :=
  if lowerStr (pathSuffix output_path) ≠ (".amxd".data) then
    .error (.usageError badExtensionMsg)
  else .ok output_path

/-- `f"output file already exists: {p} (pass --overwrite to replace)"`. -/
def existsMsg (p : Str) : Str :=
  ("output file already exists: ".data) ++ p ++ (" (pass --overwrite to replace)".data)

/-- A stored configuration value as consumed by `float(raw_timeout)`:
either a value on which `float()` succeeds, or one (carrying its display
text) on which `float()` raises `TypeError`/`ValueError`. Numbers are
modelled as rationals. -/
inductive ConfigVal where
  | numeric (q : Rat)
  | nonNumeric (txt : Str)
deriving DecidableEq

/-- `f"invalid validation timeout value: {raw_timeout}"`. -/
def invalidTimeoutMsg (txt : Str) : Str :=
  ("invalid validation timeout value: ".data) ++ txt

def timeoutNotPositiveMsg : Str :=
  ("timeout must be greater than 0 seconds".data)

/-- `resolve_validation_timeout` from `export_amxd.py`: use the explicit
argument if given, otherwise `config_get("wait_time")`; `float()` failure
is a `ValidationError`, a non-positive value a `UsageError`. -/
def resolve_validation_timeout (waitTimeCfg : ConfigVal) (timeout : Option Rat) :
    Except CLIError Rat :=
  let raw : ConfigVal :=
    match timeout with
    | some t => .numeric t
    | none => waitTimeCfg
  match raw with
  | .nonNumeric txt => .error (.validationError (invalidTimeoutMsg txt))
  | .numeric q =>
    if q ≤ 0 then .error (.usageError timeoutNotPositiveMsg)
    else .ok q

/-- The result dict returned by `export_amxd_file`. -/
structure ExportResult where
  validated : Bool
  validation_requested : Bool
  max_app_path : Option Str
  timeout_seconds : Option Rat
  output_extension : Str
deriving DecidableEq

/-- The timeout-resolution and validation stage of `export_amxd_file`
(lines 40-63), entered with the export already written to `fs1`:
resolve the timeout when validation is requested or an explicit timeout
was given; when validating, resolve the Max.app path and run the
validation; assemble the result dict. `appOracle` stands for
`resolve_max_app_path()` (a config and disk lookup) and `valOracle` for
`run_max_validation` (subprocess launch and mtime polling); both are
external effects passed as parameters and consulted exactly where the
source calls them. -/
def export_amxd_validate_stage (waitTimeCfg : ConfigVal)
    (appOracle : Except CLIError Str) (valOracle : FS → Except CLIError FS)
    (validate : Bool) (timeout : Option Rat) (fs1 : FS) :
    FS × Except CLIError ExportResult :=
  match
    (if validate || timeout.isSome then
      (resolve_validation_timeout waitTimeCfg timeout).map some
    else .ok none) with
  | .error e => (fs1, .error e)
  | .ok resolved_timeout =>
    if validate then
      match appOracle with
      | .error e => (fs1, .error e)
      | .ok max_app_path =>
        match valOracle fs1 with
        | .error e => (fs1, .error e)
        | .ok fs2 =>
          (fs2, .ok ⟨true, true, some max_app_path, resolved_timeout, (".amxd".data)⟩)
    else
      (fs1, .ok ⟨false, false, none, resolved_timeout, (".amxd".data)⟩)

/-- The overwrite check and write of `export_amxd_file` (lines 32-38),
entered with the `.amxd`-checked output path. -/
def export_amxd_checked (patchJson : Str) (waitTimeCfg : ConfigVal)
    (appOracle : Except CLIError Str) (valOracle : FS → Except CLIError FS)
    (normalized_output : Str) (overwrite validate : Bool) (timeout : Option Rat)
    (fs : FS) : FS × Except CLIError ExportResult :=
  if fsExists fs normalized_output && !overwrite then
    (fs, .error (.usageError (existsMsg normalized_output)))
  else
    export_amxd_validate_stage waitTimeCfg appOracle valOracle validate timeout
      (fsWrite fs normalized_output patchJson)

/-- `export_amxd_file` from `export_amxd.py`, threading the filesystem
explicitly. `patchJson` is the serialized form of `patch.get_json()`. The
returned filesystem is the state at normal return or at the point the
exception was raised. -/
def export_amxd_file (patchJson : Str) (waitTimeCfg : ConfigVal)
    (appOracle : Except CLIError Str) (valOracle : FS → Except CLIError FS)
    (output_path : Str) (overwrite validate : Bool) (timeout : Option Rat)
    (fs : FS) : FS × Except CLIError ExportResult :=
  match normalize_amxd_path output_path with
  | .error e => (fs, .error e)
  | .ok normalized_output =>
    export_amxd_checked patchJson waitTimeCfg appOracle valOracle
      normalized_output overwrite validate timeout fs

/-! ## Report builder (`output.py`) -/

/-- `_schema_key` from `output.py`:
`f"maxpylang.cli.{command.strip().replace(' ', '_').replace('-', '_')}.{kind}.v1"`. -/
def _schema_key (command kind : Str) : Str :=
  ("maxpylang.cli.".data)
    ++ replaceChar '-' '_' (replaceChar ' ' '_' (pyStrip command))
    ++ (".".data) ++ kind ++ (".v1".data)

/-- The schema derivation as the specification words it: lower-case the
command name, replace spaces and hyphens with the separator, append the
kind and the fixed version suffix. (Definition follows the spec, for
comparison with `_schema_key`.) -/
def schema_key_spec (command kind : Str) : Str :=
  ("maxpylang.cli.".data)
    ++ replaceChar '-' '_' (replaceChar ' ' '_' (lowerStr (pyStrip command)))
    ++ (".".data) ++ kind ++ (".v1".data)

/-- The command names this CLI passes to `_run_command` (`main.py`). -/
def commandNames : List Str :=
  [("new".data), ("list-objects".data), ("place".data), ("connect".data),
    (("replace".data) : Str), ("delete".data), ("check".data), ("save".data),
    ("export-amxd".data), ("config get".data), ("config set".data)]

/-- The payload fields `emit_success` consults for the envelope's schema
slots (`payload.get("schema", ...)`, `payload.get("data_schema", ...)`). -/
structure Payload where
  schema : Option Str
  data_schema : Option Str
deriving DecidableEq

/-- The envelope slice the schema-identifier contract speaks about. -/
structure Envelope where
  ok : Bool
  command : Str
  schema : Str
  data_schema : Option Str
deriving DecidableEq

/-- The envelope assembled by `emit_success` in `output.py`. -/
def emit_success_envelope (command : Str) (payload : Payload) : Envelope :=
  { ok := true
    command := command
    schema := payload.schema.getD (_schema_key command ("success".data))
    data_schema := some (payload.data_schema.getD (_schema_key command ("data".data))) }

/-- The envelope assembled by `emit_error` in `output.py`. -/
def emit_error_envelope (command : Str) : Envelope :=
  { ok := false
    command := command
    schema := _schema_key command ("error".data)
    data_schema := none }

/-! ## Command pipeline (`main.py`) -/

/-- What `_run_command` does with a finished action: report success, or
emit an error envelope and exit with a code, or let the exception
propagate to the framework (`except click.ClickException: raise`). -/
inductive RunOutcome where
  | success
  | exited (e : CLIError) (code : Nat)
  | reraised
deriving DecidableEq

/-- The exception dispatch of `_run_command` (`main.py` lines 105-126),
clause for clause: taxonomy errors surface with their own exit code;
`FileNotFoundError`/`IsADirectoryError` wrap as `UsageError`;
`AssertionError`/`ValueError`/`TypeError`/`KeyError` wrap as
`ValidationError`; `click.ClickException` is re-raised; anything else
wraps as `InternalError`. -/
def _run_command (action : Except PyExc Unit) : RunOutcome :=
  match action with
  | .ok _ => .success
  | .error (.cli e) => .exited e e.exit_code
  | .error (.fileNotFound m) => .exited (.usageError m) (CLIError.usageError m).exit_code
  | .error (.isADirectory m) => .exited (.usageError m) (CLIError.usageError m).exit_code
  | .error (.assertionFailed m) =>
    .exited (.validationError m) (CLIError.validationError m).exit_code
  | .error (.valueErr m) => .exited (.validationError m) (CLIError.validationError m).exit_code
  | .error (.typeErr m) => .exited (.validationError m) (CLIError.validationError m).exit_code
  | .error (.keyErr m) => .exited (.validationError m) (CLIError.validationError m).exit_code
  | .error .clickExc => .reraised
  | .error (.indexErr m) => .exited (.internalError m) (CLIError.internalError m).exit_code
  | .error (.otherExc m) => .exited (.internalError m) (CLIError.internalError m).exit_code

/-! ## The connect command (`main.py` lines 464-524) -/

/-- Resolve one `--edge` spec against the patch: parse, then resolve the
outlet and the inlet (loop body of `connect_command`, lines 484-495). -/
def resolveEdgeSpec (patch : Patch) (edge : Str) : Except PyExc (Nat × Nat) :=
  match parse_edge edge with
  | .error e => .error (.cli e)
  | .ok (srcSel, srcIdx, dstSel, dstIdx) =>
    match resolve_outlet patch srcSel srcIdx with
    | .error e => .error e
    | .ok (_, outlet) =>
      match resolve_inlet patch dstSel dstIdx with
      | .error e => .error e
      | .ok (_, inlet) => .ok (outlet, inlet)

/-- Resolve one `--from`/`--to` pair (loop body, lines 497-509). -/
def resolveFromTo (patch : Patch) (rawFrom rawTo : Str) : Except PyExc (Nat × Nat) :=
  match parse_endpoint rawFrom with
  | .error e => .error (.cli e)
  | .ok (srcSel, srcIdx) =>
    match parse_endpoint rawTo with
    | .error e => .error (.cli e)
    | .ok (dstSel, dstIdx) =>
      match resolve_outlet patch srcSel srcIdx with
      | .error e => .error e
      | .ok (_, outlet) =>
        match resolve_inlet patch dstSel dstIdx with
        | .error e => .error e
        | .ok (_, inlet) => .ok (outlet, inlet)

/-- Sequence a fallible resolution over a list, stopping at the first
failure (the `for` loops accumulating `connections`). -/
def mapMExcept (f : α → Except PyExc β) : List α → Except PyExc (List β)
  | [] => .ok []
  | a :: as =>
    match f a with
    | .error e => .error e
    | .ok b =>
      match mapMExcept f as with
      | .error e => .error e
      | .ok bs => .ok (b :: bs)

/-- All connections demanded by the command line, resolved against the
unmutated patch: first the `--edge` specs, then the `--from`/`--to`
pairs, as in the source's two loops. -/
def resolveAllConnections (patch : Patch) (edges : List Str)
    (fromEndpoints toEndpoints : List Str) : Except PyExc (List (Nat × Nat)) :=
  match mapMExcept (resolveEdgeSpec patch) edges with
  | .error e => .error e
  | .ok conns1 =>
    match mapMExcept (fun p => resolveFromTo patch p.1 p.2)
        (fromEndpoints.zip toEndpoints) with
    | .error e => .error e
    | .ok conns2 => .ok (conns1 ++ conns2)

def noEdgesMsg : Str :=
  ("connect requires at least one --edge or one --from/--to pair".data)

def fromToTogetherMsg : Str := ("--from and --to must be provided together".data)

def fromToCountMsg : Str :=
  ("--from and --to must appear the same number of times".data)

/-- The mutable state `connect_command` acts on: the loaded patch and the
filesystem the output is saved to. -/
structure ConnectState where
  patch : Patch
  fs : FS
deriving DecidableEq

/-- `_action` of `connect_command` together with `_finalize_mutation`:
argument checks, resolution of every edge, then the graph mutation
`patch.connect(*connections)` and the save. The graph engine's `connect`
and serializer, and the health scan of `_finalize_mutation`, are external
collaborators passed as parameters. Returns the state as left by the
action (the state at the raise point on failure). -/
def connect_action (connectImpl : Patch → List (Nat × Nat) → Patch)
    (serializeImpl : Patch → Str) (healthWarnings : Patch → List Str)
    (strict : Bool) (edges fromEndpoints toEndpoints : List Str)
    (outputPath : Str) (st : ConnectState) :
    ConnectState × Except PyExc Unit :=
  if edges = [] ∧ fromEndpoints = [] ∧ toEndpoints = [] then
    (st, .error (.cli (.usageError noEdgesMsg)))
  else if (!fromEndpoints.isEmpty) != (!toEndpoints.isEmpty) then
    (st, .error (.cli (.usageError fromToTogetherMsg)))
  else if fromEndpoints.length ≠ toEndpoints.length then
    (st, .error (.cli (.usageError fromToCountMsg)))
  else
    match resolveAllConnections st.patch edges fromEndpoints toEndpoints with
    | .error e => (st, .error e)
    | .ok connections =>
      let mutated := connectImpl st.patch connections
      let warnings := healthWarnings mutated
      if strict ∧ warnings ≠ [] then
        ({ st with patch := mutated }, .error (.cli (.validationError ("strict mode failed".data))))
      else
        (⟨mutated, fsWrite st.fs outputPath (serializeImpl mutated)⟩, .ok ())

/-! ## Concrete fixtures used by witnesses and counterexamples -/

/-- A patch whose object mapping contains the empty-string identifier. -/
def emptyKeyPatch : Patch := ⟨[([], ⟨none, [0], [1]⟩)]⟩

/-- A patch with one object that has a single inlet and a single outlet. -/
def onePortPatch : Patch := ⟨[(("obj-1".data), ⟨none, [4], [5]⟩)]⟩

/-- A patch where an alias collides with another object's identifier and a
second alias is carried by two objects. -/
def aliasPatch : Patch :=
  ⟨[(("obj-1".data), ⟨some ("obj-2".data), [0], [1, 2]⟩),
    (("obj-2".data), ⟨some ("dup".data), [3], [4]⟩),
    (("obj-3".data), ⟨some ("dup".data), [5], [6]⟩)]⟩

/-- Existing boxes: a well-formed `obj-3`, a non-conforming id, a
non-string id. -/
def wBoxes : List BoxEntry := [⟨some ("obj-3".data)⟩, ⟨some ("junk".data)⟩, ⟨none⟩]

/-- Helper fragment with two distinct string ids. -/
def wHelper : List BoxEntry := [⟨some ("A".data)⟩, ⟨some ("B".data)⟩]

/-- Helper fragment with a duplicated string id. -/
def dupHelper : List BoxEntry := [⟨some ("A".data)⟩, ⟨some ("A".data)⟩]

/-- A trivially succeeding external-validation oracle. -/
def okValidationOracle : FS → Except CLIError FS := fun fs => .ok fs

/-- A concrete resolved Max.app path oracle. -/
def okAppOracle : Except CLIError Str := .ok ("/Applications/Max.app".data)

def oscObj : GraphObject := ⟨some ("osc".data), [0, 1], [2, 3]⟩
def sndObj : GraphObject := ⟨none, [4], [5]⟩
def tstPatch : Patch := ⟨[(("obj-1".data), oscObj), (("obj-2".data), sndObj)]⟩

/-! ## Infrastructure lemmas: stripping and splitting -/

theorem dropWhile_eq_self_of_none (p : Char → Bool) (s : Str)
    (h : ∀ c ∈ s, p c = false) : s.dropWhile p = s := by
  cases s with
  | nil => rfl
  | cons c cs => simp [List.dropWhile_cons, h c (by simp)]

theorem pyStrip_eq_self (s : Str) (h : ∀ c ∈ s, isSpace c = false) :
    pyStrip s = s := by
  unfold pyStrip
  rw [dropWhile_eq_self_of_none isSpace s h]
  rw [dropWhile_eq_self_of_none isSpace s.reverse (by
    intro c hc
    exact h c (List.mem_reverse.mp hc))]
  exact List.reverse_reverse s

theorem splitFirstChar_eq_none_iff (sep : Char) (s : Str) :
    splitFirstChar sep s = none ↔ sep ∉ s := by
  induction s with
  | nil => simp [splitFirstChar]
  | cons c cs ih =>
    rw [splitFirstChar]
    by_cases hc : c = sep
    · subst hc
      simp
    · rw [if_neg hc]
      cases h : splitFirstChar sep cs with
      | none =>
        have h1 : sep ∉ cs := ih.mp h
        constructor
        · intro _ hmem
          rcases List.mem_cons.mp hmem with h2 | h2
          · exact hc h2.symm
          · exact h1 h2
        · intro _
          rfl
      | some ab =>
        obtain ⟨a, b⟩ := ab
        constructor
        · intro hfalse
          exact Option.noConfusion hfalse
        · intro hmem
          exfalso
          have h1 : sep ∈ cs := by
            by_contra hno
            have h2 := ih.mpr hno
            rw [h] at h2
            exact Option.noConfusion h2
          exact hmem (List.mem_cons_of_mem c h1)

theorem splitFirstChar_append (sep : Char) (a b : Str) (h : sep ∉ a) :
    splitFirstChar sep (a ++ sep :: b) = some (a, b) := by
  induction a with
  | nil => simp [splitFirstChar]
  | cons c cs ih =>
    have hc : ¬ c = sep := fun he => h (he ▸ List.mem_cons_self c cs)
    have hcs : sep ∉ cs := fun hm => h (List.mem_cons_of_mem c hm)
    rw [List.cons_append, splitFirstChar, if_neg hc, ih hcs]

theorem rsplitLastChar_append (sep : Char) (s d : Str) (h : sep ∉ d) :
    rsplitLastChar sep (s ++ sep :: d) = some (s, d) := by
  have hrev : (s ++ sep :: d).reverse = d.reverse ++ sep :: s.reverse := by
    simp
  have hd : sep ∉ d.reverse := fun hm => h (List.mem_reverse.mp hm)
  rw [rsplitLastChar, hrev, splitFirstChar_append sep d.reverse s.reverse hd]
  simp

theorem rsplitLastChar_eq_none_iff (sep : Char) (s : Str) :
    rsplitLastChar sep s = none ↔ sep ∉ s := by
  rw [rsplitLastChar]
  cases h : splitFirstChar sep s.reverse with
  | none =>
    have h1 : sep ∉ s.reverse := (splitFirstChar_eq_none_iff sep s.reverse).mp h
    constructor
    · intro _ hmem
      exact h1 (List.mem_reverse.mpr hmem)
    · intro _
      rfl
  | some ab =>
    obtain ⟨a, b⟩ := ab
    constructor
    · intro hfalse
      exact Option.noConfusion hfalse
    · intro hmem
      exfalso
      have h1 : sep ∈ s.reverse := by
        by_contra hno
        have h2 := (splitFirstChar_eq_none_iff sep s.reverse).mpr hno
        rw [h] at h2
        exact Option.noConfusion h2
      exact hmem (List.mem_reverse.mp h1)

theorem containsSub_eq_false_of (sep s : Str) (h : containsSub sep s = false) :
    splitFirstSub sep s = none := by
  unfold containsSub at h
  cases h2 : splitFirstSub sep s with
  | none => rfl
  | some ab =>
    rw [h2] at h
    exact Bool.noConfusion h

theorem containsSub_cons_false (sep : Str) (c : Char) (cs : Str)
    (h : containsSub sep (c :: cs) = false) :
    sep.isPrefixOf (c :: cs) = false ∧ containsSub sep cs = false := by
  unfold containsSub at h ⊢
  rw [splitFirstSub] at h
  by_cases hp : sep.isPrefixOf (c :: cs)
  · rw [if_pos hp] at h
    exact Bool.noConfusion h
  · rw [if_neg hp] at h
    refine ⟨by simp [hp], ?_⟩
    cases h2 : splitFirstSub sep cs with
    | none => rfl
    | some ab =>
      obtain ⟨a, b⟩ := ab
      rw [h2] at h
      exact Bool.noConfusion h

theorem arrow_split_append (a b : Str) (h : containsSub ("->".data) a = false) :
    splitFirstSub ("->".data) (a ++ '-' :: '>' :: b) = some (a, b) := by
  induction a with
  | nil =>
    rw [List.nil_append, splitFirstSub]
    rw [if_pos (by simp [List.isPrefixOf])]
    rfl
  | cons c cs ih =>
    obtain ⟨hp, hrest⟩ := containsSub_cons_false _ c cs h
    have hnp : ("->".data).isPrefixOf (c :: (cs ++ '-' :: '>' :: b)) = false := by
      cases cs with
      | nil =>
        show ("->".data).isPrefixOf (c :: '-' :: '>' :: b) = false
        simp [List.isPrefixOf]
      | cons c2 t =>
        show ("->".data).isPrefixOf (c :: c2 :: (t ++ '-' :: '>' :: b)) = false
        by_cases hc : c = '-'
        · by_cases hc2 : c2 = '>'
          · exfalso
            subst hc
            subst hc2
            simp [List.isPrefixOf] at hp
          · simp [List.isPrefixOf]
            intro _ h2
            exact hc2 h2.symm
        · simp [List.isPrefixOf]
          intro h1
          exact absurd h1.symm hc
    rw [List.cons_append, splitFirstSub]
    rw [if_neg (by rw [hnp]; exact Bool.false_ne_true)]
    rw [ih hrest]

/-! ## Infrastructure lemmas: digits and decimal rendering -/

theorem isDigitCh_digitChar (m : Nat) (h : m < 10) :
    isDigitCh (Nat.digitChar m) = true := by
  interval_cases m <;> decide

theorem digitVal_digitChar (m : Nat) (h : m < 10) :
    digitVal (Nat.digitChar m) = m := by
  interval_cases m <;> decide

theorem digit_ne_underscore (c : Char) (h : isDigitCh c = true) : c ≠ '_' := by
  intro he
  rw [he] at h
  exact absurd h (by decide)

theorem digit_ne_plus (c : Char) (h : isDigitCh c = true) : c ≠ '+' := by
  intro he
  rw [he] at h
  exact absurd h (by decide)

theorem digit_ne_minus (c : Char) (h : isDigitCh c = true) : c ≠ '-' := by
  intro he
  rw [he] at h
  exact absurd h (by decide)

theorem digit_not_space (c : Char) (h : isDigitCh c = true) : isSpace c = false := by
  cases hs : isSpace c with
  | false => rfl
  | true =>
    exfalso
    simp only [isSpace, Bool.or_eq_true, decide_eq_true_eq] at hs
    rcases hs with ((((h1 | h1) | h1) | h1) | h1) | h1 <;>
      (rw [h1] at h; exact absurd h (by decide))

theorem natToStrCore_append (fuel : Nat) :
    ∀ n acc, natToStrCore fuel n acc = natToStrCore fuel n [] ++ acc := by
  induction fuel with
  | zero => intro n acc; rfl
  | succ f ih =>
    intro n acc
    by_cases h : n < 10
    · simp [natToStrCore, h]
    · rw [natToStrCore]
      rw [if_neg h]
      conv_rhs => rw [natToStrCore]
      rw [if_neg h]
      rw [ih (n / 10) (Nat.digitChar (n % 10) :: acc)]
      rw [ih (n / 10) [Nat.digitChar (n % 10)]]
      simp

theorem natToStrCore_fuel_irrel (n : Nat) :
    ∀ fuel fuel', n < fuel → n < fuel' →
      natToStrCore fuel n [] = natToStrCore fuel' n [] := by
  induction n using Nat.strong_induction_on with
  | _ n ihn =>
    intro fuel fuel' hf hf'
    match fuel, fuel' with
    | f + 1, f' + 1 =>
      by_cases h : n < 10
      · simp [natToStrCore, h]
      · rw [natToStrCore, if_neg h]
        conv_rhs => rw [natToStrCore]
        rw [if_neg h]
        rw [natToStrCore_append f, natToStrCore_append f']
        have hdiv : n / 10 < n := Nat.div_lt_self (by omega) (by omega)
        rw [ihn (n / 10) hdiv f f' (by omega) (by omega)]

theorem natToStr_eq (n : Nat) :
    natToStr n = if n < 10 then [Nat.digitChar n]
      else natToStr (n / 10) ++ [Nat.digitChar (n % 10)] := by
  by_cases h : n < 10
  · simp [natToStr, natToStrCore, h]
  · rw [if_neg h]
    unfold natToStr
    rw [natToStrCore]
    rw [if_neg h]
    rw [natToStrCore_append n]
    have hdiv : n / 10 < n := Nat.div_lt_self (by omega) (by omega)
    congr 1
    exact natToStrCore_fuel_irrel (n / 10) n (n / 10 + 1) hdiv (by omega)

theorem natToStr_ne_nil (n : Nat) : natToStr n ≠ [] := by
  rw [natToStr_eq]
  by_cases h : n < 10
  · simp [h]
  · simp [h]

theorem natToStr_all_digits (n : Nat) :
    ∀ c ∈ natToStr n, isDigitCh c = true := by
  induction n using Nat.strong_induction_on with
  | _ n ihn =>
    intro c hc
    rw [natToStr_eq] at hc
    by_cases h : n < 10
    · rw [if_pos h] at hc
      rcases List.mem_singleton.mp hc with rfl
      exact isDigitCh_digitChar n h
    · rw [if_neg h] at hc
      rcases List.mem_append.mp hc with h2 | h2
      · exact ihn (n / 10) (Nat.div_lt_self (by omega) (by omega)) c h2
      · rcases List.mem_singleton.mp h2 with rfl
        exact isDigitCh_digitChar (n % 10) (Nat.mod_lt n (by omega))

theorem natToStr_foldl (n : Nat) :
    ∀ a : Nat, (natToStr n).foldl digitStep a = a * 10 ^ (natToStr n).length + n := by
  induction n using Nat.strong_induction_on with
  | _ n ihn =>
    intro a
    rw [natToStr_eq]
    by_cases h : n < 10
    · rw [if_pos h]
      show digitStep a (Nat.digitChar n) = a * 10 ^ 1 + n
      rw [digitStep, if_neg (digit_ne_underscore _ (isDigitCh_digitChar n h))]
      rw [digitVal_digitChar n h]
      ring
    · rw [if_neg h]
      rw [List.foldl_append]
      have hdiv : n / 10 < n := Nat.div_lt_self (by omega) (by omega)
      rw [ihn (n / 10) hdiv a]
      show digitStep _ (Nat.digitChar (n % 10)) = _
      rw [digitStep,
        if_neg (digit_ne_underscore _ (isDigitCh_digitChar _ (Nat.mod_lt n (by omega))))]
      rw [digitVal_digitChar _ (Nat.mod_lt n (by omega))]
      rw [List.length_append, List.length_singleton]
      have : (a * 10 ^ (natToStr (n / 10)).length + n / 10) * 10 + n % 10
          = a * 10 ^ ((natToStr (n / 10)).length + 1) + (n / 10 * 10 + n % 10) := by
        ring
      rw [this]
      congr 1
      omega

theorem digitsNat_natToStr (n : Nat) : digitsNat (natToStr n) = n := by
  unfold digitsNat
  rw [natToStr_foldl n 0]
  simp

theorem digitsTail_cons_digit (c : Char) (cs : Str) (h : c ≠ '_') :
    digitsTail (c :: cs) = (isDigitCh c && digitsTail cs) := by
  rw [digitsTail.eq_def]
  simp [h]

theorem digitsTail_of_all_digits (s : Str)
    (h : ∀ c ∈ s, isDigitCh c = true) : digitsTail s = true := by
  induction s with
  | nil => rfl
  | cons c cs ih =>
    have hc : isDigitCh c = true := h c (by simp)
    rw [digitsTail_cons_digit c cs (digit_ne_underscore c hc)]
    rw [hc, ih (fun d hd => h d (List.mem_cons_of_mem c hd))]
    rfl

theorem validDigits_natToStr (n : Nat) : validDigits (natToStr n) = true := by
  cases hs : natToStr n with
  | nil => exact absurd hs (natToStr_ne_nil n)
  | cons c cs =>
    have hall : ∀ d ∈ natToStr n, isDigitCh d = true := natToStr_all_digits n
    rw [hs] at hall
    rw [validDigits]
    rw [hall c (by simp), digitsTail_of_all_digits cs
      (fun d hd => hall d (List.mem_cons_of_mem c hd))]
    rfl

theorem pyStrip_natToStr (n : Nat) : pyStrip (natToStr n) = natToStr n :=
  pyStrip_eq_self (natToStr n)
    (fun c hc => digit_not_space c (natToStr_all_digits n c hc))

theorem pyInt_natToStr (n : Nat) : pyInt (natToStr n) = some (n : Int) := by
  rw [pyInt]
  rw [pyStrip_natToStr]
  cases hs : natToStr n with
  | nil => exact absurd hs (natToStr_ne_nil n)
  | cons c cs =>
    have hall : ∀ d ∈ natToStr n, isDigitCh d = true := natToStr_all_digits n
    rw [hs] at hall
    have hc : isDigitCh c = true := hall c (by simp)
    simp only [if_neg (digit_ne_plus c hc), if_neg (digit_ne_minus c hc)]
    have hv : validDigits (c :: cs) = true := by
      rw [← hs]
      exact validDigits_natToStr n
    rw [hv]
    have : digitsNat (c :: cs) = n := by
      rw [← hs]
      exact digitsNat_natToStr n
    rw [this]
    simp

theorem natToStr_injective (a b : Nat) (h : natToStr a = natToStr b) : a = b := by
  have := congrArg digitsNat h
  rwa [digitsNat_natToStr, digitsNat_natToStr] at this

theorem intToStr_nonneg (i : Int) (h : 0 ≤ i) : intToStr i = natToStr i.toNat := by
  rw [intToStr, if_neg (by omega)]

theorem pyInt_intToStr (i : Int) (h : 0 ≤ i) : pyInt (intToStr i) = some i := by
  rw [intToStr_nonneg i h, pyInt_natToStr]
  congr 1
  exact Int.toNat_of_nonneg h

theorem objIdStr_unfold (i : Int) (h : 0 ≤ i) :
    objIdStr i = ("obj".data) ++ '-' :: natToStr i.toNat := by
  rw [objIdStr, intToStr_nonneg i h]
  rfl

theorem objIdStr_injective (i j : Int) (hi : 0 ≤ i) (hj : 0 ≤ j)
    (h : objIdStr i = objIdStr j) : i = j := by
  rw [objIdStr, objIdStr] at h
  have h2 := List.append_cancel_left h
  rw [intToStr_nonneg i hi, intToStr_nonneg j hj] at h2
  have := natToStr_injective _ _ h2
  omega

theorem entrySuffix_objIdStr (i : Int) (h : 0 ≤ i) (entry : BoxEntry)
    (hid : entry.id = some (objIdStr i)) : entrySuffix entry = some i := by
  have hpre : List.isPrefixOf ("obj-".data) (("obj".data) ++ '-' :: natToStr i.toNat) = true := by
    simp [List.isPrefixOf]
  simp only [entrySuffix, hid]
  rw [objIdStr_unfold i h]
  rw [hpre]
  simp only [if_pos]
  rw [splitFirstChar_append '-' ("obj".data) (natToStr i.toNat) (by decide)]
  show pyInt (natToStr i.toNat) = some i
  rw [pyInt_natToStr]
  congr 1
  exact Int.toNat_of_nonneg h

/-! ## Infrastructure lemmas: `_next_object_index` and the id map -/

theorem le_nextIdxStep (acc : Int) (entry : BoxEntry) : acc ≤ nextIdxStep acc entry := by
  rw [nextIdxStep]
  cases entrySuffix entry with
  | none => exact le_refl acc
  | some i => exact le_max_left acc i

theorem le_foldl_nextIdx (boxes : List BoxEntry) :
    ∀ acc : Int, acc ≤ boxes.foldl nextIdxStep acc := by
  induction boxes with
  | nil => intro acc; exact le_refl acc
  | cons e es ih =>
    intro acc
    calc acc ≤ nextIdxStep acc e := le_nextIdxStep acc e
      _ ≤ es.foldl nextIdxStep (nextIdxStep acc e) := ih _

theorem nextObjectIndex_nonneg (boxes : List BoxEntry) :
    0 ≤ _next_object_index boxes :=
  le_foldl_nextIdx boxes 0

theorem suffix_le_foldl (boxes : List BoxEntry) :
    ∀ acc : Int, ∀ e ∈ boxes, ∀ i : Int, entrySuffix e = some i →
      i ≤ boxes.foldl nextIdxStep acc := by
  induction boxes with
  | nil =>
    intro acc e he
    exact absurd he (List.not_mem_nil e)
  | cons b bs ih =>
    intro acc e he i hi
    rcases List.mem_cons.mp he with rfl | hmem
    · have h1 : i ≤ nextIdxStep acc e := by
        rw [nextIdxStep, hi]
        exact le_max_right acc i
      calc i ≤ nextIdxStep acc e := h1
        _ ≤ bs.foldl nextIdxStep (nextIdxStep acc e) := le_foldl_nextIdx bs _
    · exact ih (nextIdxStep acc b) e hmem i hi

theorem suffix_le_nextObjectIndex (boxes : List BoxEntry) (e : BoxEntry)
    (he : e ∈ boxes) (i : Int) (hi : entrySuffix e = some i) :
    i ≤ _next_object_index boxes :=
  suffix_le_foldl boxes 0 e he i hi

theorem dictInsert_not_mem (m : List (Str × Str)) (k v : Str)
    (h : k ∉ m.map Prod.fst) : dictInsert m k v = m ++ [(k, v)] := by
  induction m with
  | nil => rfl
  | cons p rest ih =>
    obtain ⟨k0, v0⟩ := p
    have hk0 : ¬ k0 = k := by
      intro he
      exact h (by simp [he])
    rw [dictInsert, if_neg hk0]
    rw [ih (fun hm => h (by simp [hm]))]
    simp

theorem buildHelperIdMapAux_ok (helper : List BoxEntry) :
    ∀ ids : List Str, ∀ n : Int, ∀ m : List (Str × Str),
      helperIdsOf helper = some ids → ids.Nodup →
      (∀ k ∈ ids, k ∉ m.map Prod.fst) →
      buildHelperIdMapAux helper n m = .ok (m ++ canonIdMap ids n) := by
  induction helper with
  | nil =>
    intro ids n m hids _ _
    rw [helperIdsOf] at hids
    obtain rfl : ids = [] := by
      cases hids
      rfl
    simp [buildHelperIdMapAux, canonIdMap]
  | cons hb rest ih =>
    intro ids n m hids hnodup hdisj
    rw [helperIdsOf] at hids
    cases hid : hb.id with
    | none =>
      rw [hid] at hids
      exact absurd hids (by simp)
    | some s =>
      rw [hid] at hids
      cases hrest : helperIdsOf rest with
      | none =>
        rw [hrest] at hids
        exact absurd hids (by simp)
      | some l =>
        rw [hrest] at hids
        obtain rfl : ids = s :: l := by
          cases hids
          rfl
        rw [buildHelperIdMapAux, hid]
        have hs_not : s ∉ m.map Prod.fst := hdisj s (by simp)
        show buildHelperIdMapAux rest (n + 1) (dictInsert m s (objIdStr n)) = _
        rw [dictInsert_not_mem m s (objIdStr n) hs_not]
        have hnodup2 : l.Nodup := (List.nodup_cons.mp hnodup).2
        have hdisj2 : ∀ k ∈ l, k ∉ (m ++ [(s, objIdStr n)]).map Prod.fst := by
          intro k hk
          simp only [List.map_append, List.mem_append]
          intro hcase
          rcases hcase with hm | hs
          · exact hdisj k (by simp [hk]) hm
          · have : k = s := by simpa using hs
            exact (List.nodup_cons.mp hnodup).1 (this ▸ hk)
        rw [ih l (n + 1) (m ++ [(s, objIdStr n)]) hrest hnodup2 hdisj2]
        rw [canonIdMap]
        simp

theorem helperIdsOf_length (helper : List BoxEntry) :
    ∀ ids, helperIdsOf helper = some ids → ids.length = helper.length := by
  induction helper with
  | nil =>
    intro ids h
    rw [helperIdsOf] at h
    cases h
    rfl
  | cons hb rest ih =>
    intro ids h
    rw [helperIdsOf] at h
    cases hid : hb.id with
    | none =>
      rw [hid] at h
      exact absurd h (by simp)
    | some s =>
      rw [hid] at h
      cases hrest : helperIdsOf rest with
      | none =>
        rw [hrest] at h
        exact absurd h (by simp)
      | some l =>
        rw [hrest] at h
        cases h
        simp [ih l hrest]

theorem helperIdsOf_none (helper : List BoxEntry) :
    ∀ b ∈ helper, b.id = none →
      ∀ n m, buildHelperIdMapAux helper n m = .error (.validationError invalidHelperIdMsg) := by
  induction helper with
  | nil =>
    intro b hb
    exact absurd hb (List.not_mem_nil b)
  | cons b0 rest ih =>
    intro b hbm hbid n m
    rcases List.mem_cons.mp hbm with rfl | hmem
    · rw [buildHelperIdMapAux, hbid]
    · rw [buildHelperIdMapAux]
      cases hid : b0.id with
      | none => rfl
      | some s =>
        show buildHelperIdMapAux rest (n + 1) (dictInsert m s (objIdStr n)) = _
        exact ih b hmem hbid (n + 1) (dictInsert m s (objIdStr n))

theorem canonIdMap_length (ids : List Str) :
    ∀ n, (canonIdMap ids n).length = ids.length := by
  induction ids with
  | nil => intro n; rfl
  | cons h t ih =>
    intro n
    rw [canonIdMap]
    simp [ih (n + 1)]

theorem canonIdMap_fst (ids : List Str) :
    ∀ n, (canonIdMap ids n).map Prod.fst = ids := by
  induction ids with
  | nil => intro n; rfl
  | cons h t ih =>
    intro n
    rw [canonIdMap]
    simp [ih (n + 1)]

theorem canonIdMap_snd (ids : List Str) :
    ∀ n, (canonIdMap ids n).map Prod.snd
      = (List.range ids.length).map (fun j : Nat => objIdStr (n + (j : Int))) := by
  induction ids with
  | nil => intro n; rfl
  | cons h t ih =>
    intro n
    rw [canonIdMap]
    show objIdStr n :: (canonIdMap t (n + 1)).map Prod.snd = _
    rw [ih (n + 1)]
    simp only [List.length_cons]
    rw [List.range_succ_eq_map]
    simp only [List.map_cons, List.map_map]
    congr 1
    · simp
    · apply List.map_congr_left
      intro j hj
      show objIdStr (n + 1 + (j : Int)) = objIdStr (n + ((Nat.succ j : Nat) : Int))
      congr 1
      push_cast
      ring

/-! ## Claim theorems -/

/-- C7 (amended): the pipeline maps taxonomy errors to their own exit codes
(usage 2, object-resolution 3, validation 4, internal 5, base default 5),
wraps filesystem-not-found conditions as `UsageError`, wraps
assertion/value/type/key violations as `ValidationError`, and wraps any
other exception as `InternalError` — except the CLI framework's own
`ClickException`, which is re-raised unhandled. -/
theorem claim_C7_error_mapping :
    (∀ m, (CLIError.usageError m).exit_code = 2) ∧
    (∀ m, (CLIError.objectResolutionError m).exit_code = 3) ∧
    (∀ m, (CLIError.validationError m).exit_code = 4) ∧
    (∀ m, (CLIError.internalError m).exit_code = 5) ∧
    (∀ m, (CLIError.baseError m).exit_code = 5) ∧
    (∀ e, _run_command (.error (.cli e)) = .exited e e.exit_code) ∧
    (∀ m, _run_command (.error (.fileNotFound m)) = .exited (.usageError m) 2) ∧
    (∀ m, _run_command (.error (.isADirectory m)) = .exited (.usageError m) 2) ∧
    (∀ m, _run_command (.error (.assertionFailed m)) = .exited (.validationError m) 4) ∧
    (∀ m, _run_command (.error (.valueErr m)) = .exited (.validationError m) 4) ∧
    (∀ m, _run_command (.error (.typeErr m)) = .exited (.validationError m) 4) ∧
    (∀ m, _run_command (.error (.keyErr m)) = .exited (.validationError m) 4) ∧
    (∀ m, _run_command (.error (.indexErr m)) = .exited (.internalError m) 5) ∧
    (∀ m, _run_command (.error (.otherExc m)) = .exited (.internalError m) 5) ∧
    _run_command (.error .clickExc) = .reraised := by
  refine ⟨fun m => rfl, fun m => rfl, fun m => rfl, fun m => rfl, fun m => rfl,
    fun e => rfl, fun m => rfl, fun m => rfl, fun m => rfl, fun m => rfl,
    fun m => rfl, fun m => rfl, fun m => rfl, fun m => rfl, rfl⟩

/-- C7 counterexample: a `click.ClickException` raised inside an action is
re-raised by `_run_command`, not reclassified as `InternalError` with exit
code 5, contradicting "any other exception becomes InternalError". -/
theorem claim_C7_counterexample :
    _run_command (.error PyExc.clickExc) = RunOutcome.reraised ∧
    _run_command (.error PyExc.clickExc) ≠ RunOutcome.exited (.internalError []) 5 := by
  decide

/-- C8: for every command name this CLI runs, `_schema_key` agrees with the
spec's derivation (lower-case, replace spaces and hyphens with the
separator, append the kind and the fixed version suffix); the success
envelope (absent explicit payload overrides) carries the derived
`.success`/`.data` identifiers, and the error envelope always carries the
derived `.error` identifier with a null data schema. -/
theorem claim_C8_schema_identifiers :
    (∀ c ∈ commandNames, ∀ kind : Str, _schema_key c kind = schema_key_spec c kind) ∧
    (∀ (c : Str) (p : Payload), p.schema = none → p.data_schema = none →
      (emit_success_envelope c p).schema = _schema_key c ("success".data) ∧
      (emit_success_envelope c p).data_schema = some (_schema_key c ("data".data))) ∧
    (∀ c : Str, (emit_error_envelope c).schema = _schema_key c ("error".data) ∧
      (emit_error_envelope c).data_schema = none) := by
  refine ⟨?_, ?_, ?_⟩
  · have hnorm : ∀ c ∈ commandNames,
        replaceChar '-' '_' (replaceChar ' ' '_' (pyStrip c))
          = replaceChar '-' '_' (replaceChar ' ' '_' (lowerStr (pyStrip c))) := by
      decide
    intro c hc kind
    rw [_schema_key, schema_key_spec, hnorm c hc]
  · intro c p hs hd
    constructor
    · rw [emit_success_envelope]
      rw [hs]
      rfl
    · rw [emit_success_envelope]
      rw [hd]
      rfl
  · intro c
    exact ⟨rfl, rfl⟩

/-- C8 witness: the derivation agreement and error-envelope facts at the
concrete commands `list-objects` and `connect`. -/
theorem claim_C8_schema_identifiers_witness :
    _schema_key ("list-objects".data) ("success".data)
      = schema_key_spec ("list-objects".data) ("success".data) ∧
    (emit_error_envelope ("connect".data)).data_schema = none :=
  ⟨claim_C8_schema_identifiers.1 ("list-objects".data) (by decide) ("success".data),
    (claim_C8_schema_identifiers.2.2 ("connect".data)).2⟩

/-- C2 (amended): a selector whose trimmed form is non-empty and is a
literal key of the object mapping resolves to that key and its object,
regardless of any alias carried by other objects. -/
theorem claim_C2_identifier_wins :
    ∀ (patch : Patch) (selector : Str) (obj : GraphObject),
      pyStrip selector ≠ [] →
      lookupObj patch.objs (pyStrip selector) = some obj →
      resolve_selector patch selector = .ok (pyStrip selector, obj) := by
  intro patch sel obj hne hlk
  simp only [resolve_selector]
  rw [if_neg hne, hlk]

/-- C2 witness: `obj-2` is both an existing identifier and the alias of
`obj-1` in `aliasPatch`; resolution returns the identifier. -/
theorem claim_C2_identifier_wins_witness :
    resolve_selector aliasPatch ("obj-2".data)
      = .ok (("obj-2".data), ⟨some ("dup".data), [3], [4]⟩) :=
  claim_C2_identifier_wins aliasPatch ("obj-2".data) ⟨some ("dup".data), [3], [4]⟩
    (by decide) (by decide)

/-- C2 counterexample: for the patch whose mapping contains the
empty-string key, the all-whitespace selector `" "` is non-empty and its
trimmed form `""` is a literal key, yet `resolve_selector` raises
`UsageError` instead of returning the key. -/
theorem claim_C2_counterexample :
    (" ".data) ≠ ([] : Str) ∧
    lookupObj emptyKeyPatch.objs (pyStrip (" ".data)) = some ⟨none, [0], [1]⟩ ∧
    resolve_selector emptyKeyPatch (" ".data) = .error (.usageError emptySelectorMsg) := by
  decide

/-- In the alias branch (trimmed selector non-empty, not a key, alias
derivation yields `some a`), `resolve_selector` is the three-way match on
the alias scan. -/
theorem resolve_selector_alias_case (patch : Patch) (sel a : Str)
    (hne : pyStrip sel ≠ []) (hlk : lookupObj patch.objs (pyStrip sel) = none)
    (hda : derive_alias (pyStrip sel) = .ok (some a)) :
    resolve_selector patch sel
      = match aliasMatches patch a with
        | [] => .error (.objectResolutionError (notFoundAliasMsg a))
        | [m] => .ok m
        | ms => .error (.objectResolutionError (ambiguousMsg a (ms.map Prod.fst))) := by
  simp only [resolve_selector]
  rw [if_neg hne, hlk, hda]

/-- C3: when the trimmed selector is not an existing key and takes the
alias route (explicit `@alias:<name>` with a non-empty name, or a bare
token with neither the `@alias:` nor the `obj-` prefix), resolution
succeeds on exactly one alias match, fails "not found" on zero matches,
and fails "ambiguous" on two or more, naming every matching identifier in
mapping iteration order. -/
theorem claim_C3_alias_resolution :
    ∀ (patch : Patch) (selector a : Str),
      pyStrip selector ≠ [] →
      lookupObj patch.objs (pyStrip selector) = none →
      ((("@alias:".data).isPrefixOf (pyStrip selector) = true ∧
          (∃ pre rest, splitFirstChar ':' (pyStrip selector) = some (pre, rest) ∧
            pyStrip rest = a) ∧ a ≠ []) ∨
        (("@alias:".data).isPrefixOf (pyStrip selector) = false ∧
          ("obj-".data).isPrefixOf (pyStrip selector) = false ∧ a = pyStrip selector)) →
      ((∀ l o, aliasMatches patch a = [(l, o)] →
          resolve_selector patch selector = .ok (l, o)) ∧
        (aliasMatches patch a = [] →
          resolve_selector patch selector
            = .error (.objectResolutionError (notFoundAliasMsg a))) ∧
        (2 ≤ (aliasMatches patch a).length →
          resolve_selector patch selector
            = .error (.objectResolutionError
                (ambiguousMsg a ((aliasMatches patch a).map Prod.fst))))) := by
  intro patch sel a hne hlk hcase
  have hda : derive_alias (pyStrip sel) = .ok (some a) := by
    rcases hcase with ⟨hp, ⟨pre, rest, hsplit, hstrip⟩, hane⟩ | ⟨hp1, hp2, rfl⟩
    · rw [derive_alias, if_pos hp, hsplit]
      simp only [hstrip]
      rw [if_neg hane]
    · rw [derive_alias]
      rw [if_neg (by rw [hp1]; exact Bool.false_ne_true)]
      rw [if_neg (by rw [hp2]; exact Bool.false_ne_true)]
  have hres := resolve_selector_alias_case patch sel a hne hlk hda
  refine ⟨?_, ?_, ?_⟩
  · intro l o hm
    rw [hres, hm]
  · intro hm
    rw [hres, hm]
  · intro hlen
    match hm : aliasMatches patch a with
    | [] =>
      rw [hm] at hlen
      exact absurd hlen (by decide)
    | [x] =>
      rw [hm] at hlen
      exact absurd hlen (by simp)
    | x :: y :: t =>
      rw [hres, hm]

/-- C3 witness: the alias `dup` is carried by `obj-2` and `obj-3` of
`aliasPatch`; bare-token resolution fails as ambiguous, naming both in
iteration order. -/
theorem claim_C3_alias_resolution_witness :
    resolve_selector aliasPatch ("dup".data)
      = .error (.objectResolutionError
          (ambiguousMsg ("dup".data) [("obj-2".data), ("obj-3".data)])) :=
  (claim_C3_alias_resolution aliasPatch ("dup".data) ("dup".data)
    (by decide) (by decide) (Or.inr (by refine ⟨by decide, by decide, ?_⟩; decide))).2.2
    (by decide)

/-- `parse_endpoint` on an input whose final colon separates `s` from `d`:
the selector side is `s` stripped, the index side `d` stripped then
parsed. -/
theorem parse_endpoint_split (s d : Str) (h : ':' ∉ d) :
    parse_endpoint (s ++ ':' :: d)
      = (if pyStrip s = []
          then .error (.usageError (endpointEmptySelMsg (s ++ ':' :: d)))
          else
            match pyInt (pyStrip d) with
            | none => .error (.usageError (endpointIntMsg (s ++ ':' :: d)))
            | some i =>
              if i < 0 then .error (.usageError (endpointNegMsg (s ++ ':' :: d)))
              else .ok (pyStrip s, i)) := by
  simp only [parse_endpoint]
  rw [rsplitLastChar_append ':' s d h]

/-- C4: `parse_edge` splits at the first `->` occurrence and
parses both sides with `parse_endpoint`, failing with `UsageError` when
the arrow is absent; `parse_endpoint` splits at the last colon, requires a
non-empty trimmed selector and a parseable index `≥ 0`, and otherwise
fails with a `UsageError` naming the endpoint; and
`parse_edge("obj-1:0->obj-2:1") = ("obj-1", 0, "obj-2", 1)`. -/
theorem claim_C4_parse_edge :
    (∀ e : Str, containsSub ("->".data) e = false →
      parse_edge e = .error (.usageError (edgeFormatMsg e))) ∧
    (∀ a b : Str, containsSub ("->".data) a = false →
      parse_edge (a ++ ("->".data) ++ b)
        = match parse_endpoint a with
          | .error err => .error err
          | .ok (srcSel, srcIdx) =>
            match parse_endpoint b with
            | .error err => .error err
            | .ok (dstSel, dstIdx) => .ok (srcSel, srcIdx, dstSel, dstIdx)) ∧
    (∀ e : Str, ':' ∉ e →
      parse_endpoint e = .error (.usageError (endpointFormatMsg e))) ∧
    (∀ s d : Str, ':' ∉ d →
      (pyStrip s = [] → parse_endpoint (s ++ ':' :: d)
          = .error (.usageError (endpointEmptySelMsg (s ++ ':' :: d)))) ∧
      (pyStrip s ≠ [] → pyInt (pyStrip d) = none → parse_endpoint (s ++ ':' :: d)
          = .error (.usageError (endpointIntMsg (s ++ ':' :: d)))) ∧
      (∀ i : Int, pyStrip s ≠ [] → pyInt (pyStrip d) = some i → i < 0 →
        parse_endpoint (s ++ ':' :: d)
          = .error (.usageError (endpointNegMsg (s ++ ':' :: d)))) ∧
      (∀ i : Int, pyStrip s ≠ [] → pyInt (pyStrip d) = some i → 0 ≤ i →
        parse_endpoint (s ++ ':' :: d) = .ok (pyStrip s, i))) ∧
    parse_edge ("obj-1:0->obj-2:1".data)
      = .ok (("obj-1".data), 0, ("obj-2".data), 1) := by
  refine ⟨?_, ?_, ?_, ?_, by decide⟩
  · intro e he
    simp only [parse_edge]
    rw [containsSub_eq_false_of ("->".data) e he]
  · intro a b h
    have hflat : a ++ ("->".data) ++ b = a ++ '-' :: '>' :: b := by simp
    rw [hflat]
    simp only [parse_edge]
    rw [arrow_split_append a b h]
  · intro e he
    simp only [parse_endpoint]
    rw [(rsplitLastChar_eq_none_iff ':' e).mpr he]
  · intro s d h
    have hsplit := parse_endpoint_split s d h
    refine ⟨?_, ?_, ?_, ?_⟩
    · intro hempty
      rw [hsplit, if_pos hempty]
    · intro hne hint
      rw [hsplit, if_neg hne, hint]
    · intro i hne hint hneg
      rw [hsplit, if_neg hne, hint]
      show (if i < 0 then Except.error (CLIError.usageError (endpointNegMsg (s ++ ':' :: d)))
        else Except.ok (pyStrip s, i)) = _
      rw [if_pos hneg]
    · intro i hne hint hnn
      rw [hsplit, if_neg hne, hint]
      show (if i < 0 then Except.error (CLIError.usageError (endpointNegMsg (s ++ ':' :: d)))
        else Except.ok (pyStrip s, i)) = _
      rw [if_neg (show ¬ i < 0 by omega)]

/-- C4 witness: the branch facts at concrete inputs — no arrow, a
successful split with a colon inside the selector, a malformed index, and
the claim's literal example. -/
theorem claim_C4_parse_edge_witness :
    parse_edge ("obj-1 obj-2".data) = .error (.usageError (edgeFormatMsg ("obj-1 obj-2".data))) ∧
    parse_endpoint (("@alias:osc".data) ++ ':' :: ("7".data)) = .ok (("@alias:osc".data), 7) ∧
    parse_endpoint (("x".data) ++ ':' :: ("y".data))
      = .error (.usageError (endpointIntMsg (("x".data) ++ ':' :: ("y".data)))) :=
  ⟨claim_C4_parse_edge.1 ("obj-1 obj-2".data) (by decide),
    (claim_C4_parse_edge.2.2.2.1 ("@alias:osc".data) ("7".data) (by decide)).2.2.2 7
      (by decide) (by decide) (by decide),
    (claim_C4_parse_edge.2.2.2.1 ("x".data) ("y".data) (by decide)).2.1
      (by decide) (by decide)⟩

/-- C9 (amended): with the selector resolved to `(label, obj)`, an index
at or above the port count fails with `ObjectResolutionError` reporting
the index, the identifier, and the available count; an index with
`0 ≤ index < count` returns the label and the port at that index
(negative indices follow Python sequence indexing instead). -/
theorem claim_C9_port_bounds :
    ∀ (patch : Patch) (selector : Str) (index : Int) (label : Str) (obj : GraphObject),
      resolve_selector patch selector = .ok (label, obj) →
      (((obj.outs.length : Int) ≤ index →
        resolve_outlet patch selector index
          = .error (.cli (.objectResolutionError
              (outletRangeMsg index label obj.outs.length)))) ∧
      (∀ port, 0 ≤ index → obj.outs.get? index.toNat = some port →
        resolve_outlet patch selector index = .ok (label, port)) ∧
      ((obj.ins.length : Int) ≤ index →
        resolve_inlet patch selector index
          = .error (.cli (.objectResolutionError
              (inletRangeMsg index label obj.ins.length)))) ∧
      (∀ port, 0 ≤ index → obj.ins.get? index.toNat = some port →
        resolve_inlet patch selector index = .ok (label, port))) := by
  intro patch sel index label obj hres
  have houtlet : resolve_outlet patch sel index
      = (if (obj.outs.length : Int) ≤ index then
          Except.error (PyExc.cli (.objectResolutionError
            (outletRangeMsg index label obj.outs.length)))
        else
          match pyGetItem obj.outs index with
          | some port => Except.ok (label, port)
          | none => Except.error (.indexErr ("list index out of range".data))) := by
    simp only [resolve_outlet]
    rw [hres]
  have hinlet : resolve_inlet patch sel index
      = (if (obj.ins.length : Int) ≤ index then
          Except.error (PyExc.cli (.objectResolutionError
            (inletRangeMsg index label obj.ins.length)))
        else
          match pyGetItem obj.ins index with
          | some port => Except.ok (label, port)
          | none => Except.error (.indexErr ("list index out of range".data))) := by
    simp only [resolve_inlet]
    rw [hres]
  refine ⟨?_, ?_, ?_, ?_⟩
  · intro hle
    rw [houtlet, if_pos hle]
  · intro port hnn hget
    have hlt : index.toNat < obj.outs.length := (List.get?_eq_some.mp hget).1
    rw [houtlet, if_neg (show ¬ (obj.outs.length : Int) ≤ index by omega)]
    rw [pyGetItem, if_pos hnn, hget]
  · intro hle
    rw [hinlet, if_pos hle]
  · intro port hnn hget
    have hlt : index.toNat < obj.ins.length := (List.get?_eq_some.mp hget).1
    rw [hinlet, if_neg (show ¬ (obj.ins.length : Int) ≤ index by omega)]
    rw [pyGetItem, if_pos hnn, hget]

/-- C9 witness: `obj-1` of `aliasPatch` has two outlets; index 5 fails
reporting the count, index 1 returns the port. -/
theorem claim_C9_port_bounds_witness :
    resolve_outlet aliasPatch ("obj-1".data) 5
      = .error (.cli (.objectResolutionError
          (outletRangeMsg 5 ("obj-1".data) 2))) ∧
    resolve_outlet aliasPatch ("obj-1".data) 1 = .ok (("obj-1".data), 2) :=
  ⟨(claim_C9_port_bounds aliasPatch ("obj-1".data) 5 ("obj-1".data)
      ⟨some ("obj-2".data), [0], [1, 2]⟩ (by decide)).1 (by decide),
    (claim_C9_port_bounds aliasPatch ("obj-1".data) 1 ("obj-1".data)
      ⟨some ("obj-2".data), [0], [1, 2]⟩ (by decide)).2.1 2 (by decide) (by decide)⟩

/-- C9 counterexample: the object has one outlet and the index `-2` is
less than the count, but `resolve_outlet` raises a Python `IndexError`
(`obj.outs[-2]`) instead of returning a port. -/
theorem claim_C9_counterexample :
    ((-2 : Int) < ((1 : Nat) : Int)) ∧
    resolve_outlet onePortPatch ("obj-1".data) (-2)
      = .error (.indexErr ("list index out of range".data)) := by
  decide

/-- The validation stage propagates a timeout-resolution failure without
consulting either oracle, leaving the filesystem as written. -/
theorem export_validate_stage_err (waitTimeCfg : ConfigVal)
    (appOracle : Except CLIError Str) (valOracle : FS → Except CLIError FS)
    (validate : Bool) (timeout : Option Rat) (fs1 : FS) (e : CLIError)
    (h : (if validate || timeout.isSome then
        (resolve_validation_timeout waitTimeCfg timeout).map some
      else .ok none) = .error e) :
    export_amxd_validate_stage waitTimeCfg appOracle valOracle validate timeout fs1
      = (fs1, .error e) := by
  simp only [export_amxd_validate_stage]
  rw [h]

/-- C5: exporting to a path without the `.amxd` extension fails with
`UsageError` leaving the filesystem untouched; exporting onto an existing
file without `--overwrite` fails with `UsageError` and leaves the existing
contents byte-for-byte unchanged. Both checks precede the write. -/
theorem claim_C5_export_guards :
    ∀ (patchJson : Str) (waitTimeCfg : ConfigVal) (appOracle : Except CLIError Str)
      (valOracle : FS → Except CLIError FS) (out : Str) (overwrite validate : Bool)
      (timeout : Option Rat) (fs : FS),
      (lowerStr (pathSuffix out) ≠ (".amxd".data) →
        export_amxd_file patchJson waitTimeCfg appOracle valOracle out overwrite
            validate timeout fs
          = (fs, .error (.usageError badExtensionMsg))) ∧
      (∀ contents, lowerStr (pathSuffix out) = (".amxd".data) →
        fsRead fs out = some contents → overwrite = false →
        export_amxd_file patchJson waitTimeCfg appOracle valOracle out overwrite
            validate timeout fs
          = (fs, .error (.usageError (existsMsg out))) ∧
        fsRead (export_amxd_file patchJson waitTimeCfg appOracle valOracle out
            overwrite validate timeout fs).1 out = some contents) := by
  intro patchJson waitTimeCfg appOracle valOracle out overwrite validate timeout fs
  constructor
  · intro hne
    simp only [export_amxd_file, normalize_amxd_path]
    rw [if_pos hne]
  · intro contents hsfx hread how
    have hmain : export_amxd_file patchJson waitTimeCfg appOracle valOracle out
        overwrite validate timeout fs = (fs, .error (.usageError (existsMsg out))) := by
      simp only [export_amxd_file, normalize_amxd_path]
      rw [if_neg (fun hcon => hcon hsfx)]
      show export_amxd_checked patchJson waitTimeCfg appOracle valOracle out
        overwrite validate timeout fs = _
      simp only [export_amxd_checked]
      rw [if_pos (by rw [fsExists, hread, how]; rfl)]
    exact ⟨hmain, by rw [hmain]; exact hread⟩

/-- C5 witness: the extension guard and the overwrite guard at concrete
inputs, with the pre-existing contents preserved. -/
theorem claim_C5_export_guards_witness :
    export_amxd_file ("J".data) (.numeric 2) okAppOracle okValidationOracle
        ("/t/dev.txt".data) false false none []
      = ([], .error (.usageError badExtensionMsg)) ∧
    export_amxd_file ("J".data) (.numeric 2) okAppOracle okValidationOracle
        ("/t/d.amxd".data) false true none [(("/t/d.amxd".data), ("old".data))]
      = ([(("/t/d.amxd".data), ("old".data))],
         .error (.usageError (existsMsg ("/t/d.amxd".data)))) :=
  ⟨(claim_C5_export_guards ("J".data) (.numeric 2) okAppOracle okValidationOracle
      ("/t/dev.txt".data) false false none []).1 (by decide),
    ((claim_C5_export_guards ("J".data) (.numeric 2) okAppOracle okValidationOracle
      ("/t/d.amxd".data) false true none [(("/t/d.amxd".data), ("old".data))]).2
      ("old".data) (by decide) (by decide) rfl).1⟩

/-- C10 (amended): the timeout is resolved whenever validation is
requested or an explicit timeout is given, after the export has been
written; a call with `validate=False` and a non-positive explicit timeout
fails with `UsageError`, and a call with `validate=True` and no explicit
timeout fails with `ValidationError` on a non-numeric configured value
before any validation action — in both failures the export file has
already been written (the outcome is independent of both oracles). With
`validate=False` the configured value is never consulted. -/
theorem claim_C10_timeout_after_write :
    ∀ (patchJson : Str) (waitTimeCfg : ConfigVal) (appOracle : Except CLIError Str)
      (valOracle : FS → Except CLIError FS) (out : Str) (overwrite : Bool) (fs : FS),
      lowerStr (pathSuffix out) = (".amxd".data) →
      (fsExists fs out && !overwrite) = false →
      ((∀ t : Rat, t ≤ 0 →
        export_amxd_file patchJson waitTimeCfg appOracle valOracle out overwrite
            false (some t) fs
          = (fsWrite fs out patchJson, .error (.usageError timeoutNotPositiveMsg))) ∧
      (∀ txt, waitTimeCfg = .nonNumeric txt →
        export_amxd_file patchJson waitTimeCfg appOracle valOracle out overwrite
            true none fs
          = (fsWrite fs out patchJson,
             .error (.validationError (invalidTimeoutMsg txt))))) := by
  intro patchJson waitTimeCfg appOracle valOracle out overwrite fs hsfx hchk
  have hstep : ∀ validate timeout,
      export_amxd_file patchJson waitTimeCfg appOracle valOracle out overwrite
          validate timeout fs
        = export_amxd_validate_stage waitTimeCfg appOracle valOracle validate timeout
            (fsWrite fs out patchJson) := by
    intro validate timeout
    simp only [export_amxd_file, normalize_amxd_path]
    rw [if_neg (fun hcon => hcon hsfx)]
    show export_amxd_checked patchJson waitTimeCfg appOracle valOracle out
      overwrite validate timeout fs = _
    simp only [export_amxd_checked]
    rw [if_neg (by rw [hchk]; exact Bool.false_ne_true)]
  constructor
  · intro t ht
    rw [hstep false (some t)]
    apply export_validate_stage_err
    have h1 : resolve_validation_timeout waitTimeCfg (some t)
        = .error (.usageError timeoutNotPositiveMsg) := by
      show (if t ≤ 0 then (.error (.usageError timeoutNotPositiveMsg) : Except CLIError Rat)
        else .ok t) = _
      rw [if_pos ht]
    simp [h1, Except.map]
  · intro txt hcfg
    rw [hstep true none]
    apply export_validate_stage_err
    subst hcfg
    simp [resolve_validation_timeout, Except.map]

/-- C10 witness: at concrete inputs, a non-positive explicit timeout with
`validate=False` fails with `UsageError` after the file is written, and a
non-numeric configured value with `validate=True` fails with
`ValidationError` after the file is written. -/
theorem claim_C10_timeout_after_write_witness :
    export_amxd_file ("J".data) (.numeric 2) okAppOracle okValidationOracle
        ("/t/d.amxd".data) false false (some (-1)) []
      = ([(("/t/d.amxd".data), ("J".data))],
         .error (.usageError timeoutNotPositiveMsg)) ∧
    export_amxd_file ("J".data) (.nonNumeric ("junk".data)) okAppOracle
        okValidationOracle ("/t/d.amxd".data) false true none []
      = ([(("/t/d.amxd".data), ("J".data))],
         .error (.validationError (invalidTimeoutMsg ("junk".data)))) :=
  ⟨(claim_C10_timeout_after_write ("J".data) (.numeric 2) okAppOracle
      okValidationOracle ("/t/d.amxd".data) false [] (by decide) (by decide)).1
      (-1) (by decide),
    (claim_C10_timeout_after_write ("J".data) (.nonNumeric ("junk".data)) okAppOracle
      okValidationOracle ("/t/d.amxd".data) false [] (by decide) (by decide)).2
      ("junk".data) rfl⟩

/-- C10 counterexample: with `validate=False` and no explicit timeout, a
non-numeric configured `wait_time` does not raise `ValidationError` — the
export succeeds, because the configured value is never consulted. -/
theorem claim_C10_counterexample :
    export_amxd_file ("J".data) (.nonNumeric ("junk".data)) okAppOracle
        okValidationOracle ("/t/d.amxd".data) false false none []
      = ([(("/t/d.amxd".data), ("J".data))],
         .ok ⟨false, false, none, none, (".amxd".data)⟩) := by
  decide

/-- C6: if any edge spec or from/to endpoint fails to parse or resolve,
`connect_command`'s action returns that error with the patch and the
filesystem exactly as they were — the mutation and the save are never
reached, whatever the graph engine's `connect`, the serializer and the
health scan would do. -/
theorem claim_C6_connect_atomic :
    ∀ (connectImpl : Patch → List (Nat × Nat) → Patch) (serializeImpl : Patch → Str)
      (healthWarnings : Patch → List Str) (strict : Bool)
      (edges fromEndpoints toEndpoints : List Str) (outputPath : Str)
      (st : ConnectState) (e : PyExc),
      ¬(edges = [] ∧ fromEndpoints = [] ∧ toEndpoints = []) →
      ((!fromEndpoints.isEmpty) != (!toEndpoints.isEmpty)) = false →
      fromEndpoints.length = toEndpoints.length →
      resolveAllConnections st.patch edges fromEndpoints toEndpoints = .error e →
      connect_action connectImpl serializeImpl healthWarnings strict edges
          fromEndpoints toEndpoints outputPath st
        = (st, .error e) := by
  intro connectImpl serializeImpl healthWarnings strict edges fromE toE
    outputPath st e h1 h2 h3 herr
  simp only [connect_action]
  rw [if_neg h1]
  rw [if_neg (by rw [h2]; exact Bool.false_ne_true)]
  rw [if_neg (fun hc => hc h3)]
  rw [herr]

/-- C6 witness: a single `--edge` whose destination does not resolve
leaves the state untouched and surfaces the resolution error. -/
theorem claim_C6_connect_atomic_witness :
    connect_action (fun p _ => p) (fun _ => ("S".data)) (fun _ => []) false
        [("obj-1:0->obj-9:0".data)] [] [] ("/out.maxpat".data) ⟨onePortPatch, []⟩
      = (⟨onePortPatch, []⟩,
         .error (.cli (.objectResolutionError (notFoundObjMsg ("obj-9".data))))) :=
  claim_C6_connect_atomic (fun p _ => p) (fun _ => ("S".data)) (fun _ => []) false
    [("obj-1:0->obj-9:0".data)] [] [] ("/out.maxpat".data) ⟨onePortPatch, []⟩
    (.cli (.objectResolutionError (notFoundObjMsg ("obj-9".data))))
    (by decide) (by decide) (by decide) (by decide)

/-- The fresh identifiers `obj-(m+1) … obj-(m+k)` are pairwise distinct. -/
theorem canonValues_nodup (k : Nat) (n : Int) (hn : 0 ≤ n) :
    ((List.range k).map (fun j : Nat => objIdStr (n + (j : Int)))).Nodup := by
  refine List.Nodup.map_on ?_ (List.nodup_range k)
  intro x hx y hy heq
  have hx0 : (0 : Int) ≤ n + (x : Int) := by omega
  have hy0 : (0 : Int) ≤ n + (y : Int) := by omega
  have := objIdStr_injective _ _ hx0 hy0 heq
  omega

/-- No fresh identifier collides with the id of any pre-existing box. -/
theorem canonValues_fresh (boxes : List BoxEntry) (k : Nat) (e : BoxEntry)
    (he : e ∈ boxes) (s : Str) (hid : e.id = some s) :
    s ∉ (List.range k).map
      (fun j : Nat => objIdStr (_next_object_index boxes + 1 + (j : Int))) := by
  intro hmem
  obtain ⟨j, hj, heq⟩ := List.mem_map.mp hmem
  have hm := nextObjectIndex_nonneg boxes
  have h0 : (0 : Int) ≤ _next_object_index boxes + 1 + (j : Int) := by omega
  have hsfx : entrySuffix e = some (_next_object_index boxes + 1 + (j : Int)) :=
    entrySuffix_objIdStr _ h0 e (by rw [hid, heq])
  have hle := suffix_le_nextObjectIndex boxes e he _ hsfx
  omega

/-- C1 (amended): for helper boxes carrying pairwise-distinct string
identifiers, `_build_helper_id_map` returns exactly the mapping that sends
the `k` helper identifiers, in fragment order, to the `k` distinct fresh
identifiers `obj-(m+1) … obj-(m+k)` (where `m = _next_object_index boxes`
bounds every existing well-formed numeric suffix and is non-negative); the
fresh identifiers never collide with any existing string identifier; and a
helper box whose identifier is not a string raises `ValidationError`. -/
theorem claim_C1_id_remapper :
    (∀ (boxes helper : List BoxEntry) (ids : List Str),
      helperIdsOf helper = some ids → ids.Nodup →
      (_build_helper_id_map boxes helper
          = .ok (canonIdMap ids (_next_object_index boxes + 1)) ∧
        (canonIdMap ids (_next_object_index boxes + 1)).length = helper.length ∧
        (canonIdMap ids (_next_object_index boxes + 1)).map Prod.fst = ids ∧
        (canonIdMap ids (_next_object_index boxes + 1)).map Prod.snd
            = (List.range helper.length).map
                (fun j : Nat => objIdStr (_next_object_index boxes + 1 + (j : Int))) ∧
        ((canonIdMap ids (_next_object_index boxes + 1)).map Prod.snd).Nodup ∧
        (∀ e ∈ boxes, ∀ s, e.id = some s →
          s ∉ (canonIdMap ids (_next_object_index boxes + 1)).map Prod.snd) ∧
        0 ≤ _next_object_index boxes ∧
        (∀ e ∈ boxes, ∀ i : Int, entrySuffix e = some i →
          i ≤ _next_object_index boxes))) ∧
    (∀ (boxes helper : List BoxEntry), (∃ b ∈ helper, b.id = none) →
      _build_helper_id_map boxes helper
        = .error (.validationError invalidHelperIdMsg)) := by
  constructor
  · intro boxes helper ids hids hnodup
    have hlen : ids.length = helper.length := helperIdsOf_length helper ids hids
    have hsnd := canonIdMap_snd ids (_next_object_index boxes + 1)
    rw [hlen] at hsnd
    refine ⟨?_, ?_, canonIdMap_fst ids _, hsnd, ?_, ?_, nextObjectIndex_nonneg boxes,
      fun e he i hi => suffix_le_nextObjectIndex boxes e he i hi⟩
    · rw [_build_helper_id_map]
      rw [buildHelperIdMapAux_ok helper ids (_next_object_index boxes + 1) []
        hids hnodup (by simp)]
      rfl
    · rw [canonIdMap_length, hlen]
    · rw [hsnd]
      exact canonValues_nodup helper.length (_next_object_index boxes + 1)
        (by have := nextObjectIndex_nonneg boxes; omega)
    · intro e he s hid
      rw [hsnd]
      exact canonValues_fresh boxes helper.length e he s hid
  · intro boxes helper hex
    obtain ⟨b, hb, hbid⟩ := hex
    rw [_build_helper_id_map]
    exact helperIdsOf_none helper b hb hbid _ []

/-- C1 witness: with existing ids `obj-3`, `junk` and a non-string id, the
helper ids `A`, `B` map to `obj-4`, `obj-5`; a helper fragment with a
non-string id fails with `ValidationError`. -/
theorem claim_C1_id_remapper_witness :
    _build_helper_id_map wBoxes wHelper
      = .ok (canonIdMap [("A".data), ("B".data)] (_next_object_index wBoxes + 1)) ∧
    _build_helper_id_map wBoxes [⟨some ("A".data)⟩, ⟨none⟩]
      = .error (.validationError invalidHelperIdMsg) :=
  ⟨(claim_C1_id_remapper.1 wBoxes wHelper [("A".data), ("B".data)]
      (by decide) (by decide)).1,
    claim_C1_id_remapper.2 wBoxes [⟨some ("A".data)⟩, ⟨none⟩] ⟨⟨none⟩, by decide, rfl⟩⟩

/-- C1 counterexample: a helper fragment of `k = 2` boxes that both carry
the string identifier `A` yields a mapping with a single entry sending `A`
to `obj-2` — not two fresh identifiers `obj-1`, `obj-2` — because the
second dict assignment overwrites the first. -/
theorem claim_C1_counterexample :
    _build_helper_id_map [] dupHelper = .ok [(("A".data), ("obj-2".data))] ∧
    dupHelper.length = 2 ∧
    ([(("A".data), ("obj-2".data))] : List (Str × Str)).length = 1 := by
  decide
